import Mathlib

/-!
Verification of the rate-limit coordinator and NUI message bridge of
`Inkwell-Studios/fivem-react-template`.

Shallow embedding of `src/web/src/hooks/useRateLimit.js` (the hook
`useRateLimit` with its `showMessage` helper, the host-reply effect and
`performAction`) and of the NUI provider (`useNui` and `sendMessage`).
Timestamps are integers (milliseconds since epoch, as produced by
`Date.now()`); JavaScript `Promise` resolution is modelled by plain
sequential evaluation; a thrown exception is modelled by `Except.error`.
-/

/-- A JavaScript value, distinguished only as far as
`typeof event === 'string'` in `sendMessage` needs. -/
inductive JSVal where
  | str (s : String)
  | other
  deriving DecidableEq

/-- A parsed JSON body as `resp.json()` produces it. Composite values are
irrelevant to the properties below, so only scalar shapes are listed. -/
inductive JsonValue where
  | null
  | bool (b : Bool)
  | num (n : Int)
  | str (s : String)
  deriving DecidableEq

/-- The response observed by `sendMessage` when the `fetch` promise resolves:
the HTTP status, the outcome of parsing the body as JSON (`none` when parsing
fails), and the raw body text. -/
structure FetchResponse where
  status : Int
  jsonBody : Option JsonValue
  textBody : String
  deriving DecidableEq

/-- `Response.ok` per the fetch specification: the status is in the 2xx range. -/
def respOk (status : Int) : Bool :=
  decide (200 ≤ status) && decide (status ≤ 299)

/-- Outcome of the `fetch` call: the promise either rejects (network /
transport error) or resolves with a response. -/
inductive FetchOutcome where
  | rejected (err : String)
  | response (r : FetchResponse)
  deriving DecidableEq

/-- What the `sendMessage` promise resolves with. -/
inductive SendResult where
  | null
  | jsonVal (v : JsonValue)
  | text (s : String)
  deriving DecidableEq

/-- The browser/host environment `sendMessage` runs against:
`window.GetParentResourceName` when that function is defined (modelled by the
string it would return), and the transport as a function from the fetched URL
and the serialized body to the fetch outcome. -/
structure HostEnv where
  getParentResourceName : Option String
  fetch : String → String → FetchOutcome

/-- `const eventName = typeof event === 'string' ? event : 'unknownEvent'`. -/
def eventNameOf (event : JSVal) : String :=
  match event with
  | .str s => s
  | .other => "unknownEvent"

/-- `window.GetParentResourceName ? window.GetParentResourceName() : 'inkwell-react-template'`. -/
def resourceNameOf (g : Option String) : String :=
  match g with
  | some r => r
  | none => "inkwell-react-template"

/-- The URL targeted by the `fetch` inside `sendMessage`. -/
def sendUrl (env : HostEnv) (event : JSVal) : String :=
  "https://" ++ resourceNameOf env.getParentResourceName ++ "/" ++ eventNameOf event

/-- What a `sendMessage` call did: the URL its host call targeted and the
value its promise resolved with. -/
structure SendOutcome where
  url : String
  result : SendResult
  deriving DecidableEq

/-- Shallow embedding of `sendMessage` (NuiProvider): compute the event name
and resource name, `fetch` the URL; resolve `null` when the fetch rejects or
the response is not ok, otherwise the JSON parse of the body, falling back to
the raw text when parsing fails. -/
def sendMessage (env : HostEnv) (event : JSVal) (body : String) : SendOutcome :=
  let url := sendUrl env event
  match env.fetch url body with
  | .rejected _ => { url := url, result := .null }
  | .response r =>
      if respOk r.status then
        match r.jsonBody with
        | some v => { url := url, result := .jsonVal v }
        | none => { url := url, result := .text r.textBody }
      else
        { url := url, result := .null }

/-- The context value provided by `NuiProvider` (fields beyond `visible` do
not matter for the properties below). -/
structure NuiContextValue where
  visible : Bool
  deriving DecidableEq

/-- Shallow embedding of `useNui`: `useContext(NuiContext)` is the argument;
`throw new Error(...)` is modelled as `Except.error` with the thrown message. -/
def useNui (ctx : Option NuiContextValue) : Except String NuiContextValue :=
  match ctx with
  | none => .error "useNui must be used within NuiProvider"
  | some c => .ok c

/-- State visible to one `useRateLimit` hook instance: its two `useState`
cells, its single `messageTimeoutRef` (modelled by the scheduled expiry time
of the pending auto-clear timer, if one is pending), and the process-wide
`LastActionTime` store it reads and writes. -/
structure HookState where
  isRateLimited : Bool
  rateLimitMessage : Option String
  messageTimeout : Option Int
  lastActionTimes : List (String × Int)
  deriving DecidableEq

/-- The hook state on first mount with an empty `LastActionTime` store. -/
def initialHookState : HookState :=
  { isRateLimited := false
    rateLimitMessage := none
    messageTimeout := none
    lastActionTimes := [] }

/-- Modelled from the spec: the `rateLimitStore` module (its source is not
under src/) holds `LastActionTime`, a process-wide mapping from ActionId to a
millisecond timestamp; `getLastActionTime` reads the entry for an id, absent
when no confirmed action for the id has been recorded. -/
def getLastActionTime (m : List (String × Int)) (id : String) : Option Int :=
  m.lookup id

/-- Modelled from the spec: `setLastActionTime` of the `rateLimitStore`
(its source is not under src/) overwrites the mapping entry for an id;
`List.lookup` returns the most recent entry, giving overwrite semantics. -/
def setLastActionTime (m : List (String × Int)) (id : String) (t : Int) :
    List (String × Int) :=
  (id, t) :: m

/-- The denial message shown for an action id,
`` `Action [${id}] is rate limited. Please wait.` ``. -/
def rateLimitText (id : String) : String :=
  "Action [" ++ id ++ "] is rate limited. Please wait."

/-- Shallow embedding of `showMessage`: set the message, clear the pending
auto-clear timer if any (the single `messageTimeoutRef` cell is overwritten),
and schedule a new auto-clear `messageDuration` ms from now. -/
def showMessage (messageDuration now : Int) (msg : String) (s : HookState) :
    HookState :=
  { s with rateLimitMessage := some msg
           messageTimeout := some (now + messageDuration) }

/-- Shallow embedding of the rate-limit response effect of `useRateLimit`:
when the shared `rateLimitResponses` map has an entry for this id, set
`isRateLimited` to its negation; when allowed, record the current time in the
`LastActionTime` store, clear the message and cancel the pending timer; when
denied, show the denial message. -/
def rateLimitEffect (id : String) (messageDuration now : Int)
    (rateLimitResponses : List (String × Bool)) (s : HookState) : HookState :=
  match rateLimitResponses.lookup id with
  | none => s
  | some allowed =>
      let s1 := { s with isRateLimited := !allowed }
      if allowed then
        { s1 with lastActionTimes := setLastActionTime s1.lastActionTimes id now
                  rateLimitMessage := none
                  messageTimeout := none }
      else
        showMessage messageDuration now (rateLimitText id) s1

/-- The local cooldown check of `performAction`:
`now - lastActionTime < cooldown`. When the store has no entry for the id the
subtraction involves no recorded timestamp and the check does not deny
(`now - undefined` is `NaN`, which compares false). -/
def localCooldownDenies (cooldown now : Int) (last : Option Int) : Bool :=
  match last with
  | some t => decide (now - t < cooldown)
  | none => false

/-- The host call issued by `performAction`:
`sendMessage('checkRateLimit', { actionId: id, cooldown })`. -/
structure HostCall where
  event : String
  actionId : String
  cooldown : Int
  deriving DecidableEq

/-- What one `performAction` invocation did: the resulting state, the host
call it issued (if any), and whether it invoked the caller's `actionFn`. -/
structure PerformOutcome where
  state : HookState
  hostCall : Option HostCall
  actionInvoked : Bool
  deriving DecidableEq

/-- Shallow embedding of `performAction`: read `LastActionTime[id]`; if the
local cooldown check denies, show the denial message and return; otherwise
clear any displayed message and its timer, issue the `checkRateLimit` host
call, and invoke `actionFn`. -/
def performAction (id : String) (cooldown messageDuration now : Int)
    (s : HookState) : PerformOutcome :=
  if localCooldownDenies cooldown now (getLastActionTime s.lastActionTimes id) then
    { state := showMessage messageDuration now (rateLimitText id) s
      hostCall := none
      actionInvoked := false }
  else
    { state := { s with rateLimitMessage := none, messageTimeout := none }
      hostCall := some { event := "checkRateLimit", actionId := id, cooldown := cooldown }
      actionInvoked := true }

/-- The auto-clear timer firing: at its scheduled instant the `setTimeout`
callback clears the message and the timer is spent; at any other instant, or
with no timer pending, nothing happens. -/
def fireTimer (now : Int) (s : HookState) : HookState :=
  match s.messageTimeout with
  | some t =>
      if t = now then
        { s with rateLimitMessage := none, messageTimeout := none }
      else s
  | none => s

/-- C1 counterexample: with `LastActionTime["open_stash"] = 0` and cooldown
5000, `performAction` is called at t = 5000 and again at t = 6000 — two calls
1000 ms apart, well within cooldown, with no host reply processed in between.
Since `performAction` never advances `LastActionTime`, the second call passes
the local check exactly as the first did and issues a `checkRateLimit` host
call — the claim says it must issue none. -/
theorem C1_counterexample :
    ((6000 : Int) - 5000 < 5000) ∧
    (performAction "open_stash" 5000 2000 5000
        { initialHookState with
            lastActionTimes := [("open_stash", 0)] }).hostCall.isSome = true ∧
    (performAction "open_stash" 5000 2000 6000
        (performAction "open_stash" 5000 2000 5000
          { initialHookState with
              lastActionTimes := [("open_stash", 0)] }).state).hostCall.isSome
      = true := by
  refine ⟨by decide, ?_, ?_⟩ <;> decide

/-- C1 (amended): the local guard takes effect only once an allowed host
reply has been recorded: after a host reply with allowed = true for an id is
processed at time t, a `performAction` call for that id at any time `now`
with `now - t < cooldown` issues no `checkRateLimit` host call (and does not
invoke `actionFn`). -/
theorem C1_amended (id : String) (cooldown messageDuration : Int)
    (responses : List (String × Bool)) (t now : Int) (s : HookState)
    (hresp : responses.lookup id = some true) (hlt : now - t < cooldown) :
    (performAction id cooldown messageDuration now
        (rateLimitEffect id messageDuration t responses s)).hostCall = none ∧
    (performAction id cooldown messageDuration now
        (rateLimitEffect id messageDuration t responses s)).actionInvoked = false := by
  simp [performAction, rateLimitEffect, hresp, setLastActionTime, getLastActionTime,
    localCooldownDenies, List.lookup, hlt]

/-- C1 amended witness at concrete input. -/
theorem C1_amended_witness :
    (performAction "open_stash" 5000 2000 1200
        (rateLimitEffect "open_stash" 2000 900 [("open_stash", true)]
          initialHookState)).hostCall = none :=
  (C1_amended "open_stash" 5000 2000 [("open_stash", true)] 900 1200
    initialHookState (by decide) (by decide)).1

/-- C2: when the store has `LastActionTime[id] = t` and `now - t < cooldown`,
`performAction` displays the denial message with its auto-clear scheduled
`messageDuration` ms later, issues no host call, does not invoke `actionFn`,
and leaves every other piece of state unchanged; firing the timer at its
scheduled instant clears the message. -/
theorem C2_localDenial (id : String) (cooldown messageDuration now t : Int)
    (s : HookState)
    (hlast : getLastActionTime s.lastActionTimes id = some t)
    (hlt : now - t < cooldown) :
    performAction id cooldown messageDuration now s =
      { state := { s with rateLimitMessage := some (rateLimitText id)
                          messageTimeout := some (now + messageDuration) }
        hostCall := none
        actionInvoked := false } ∧
    (fireTimer (now + messageDuration)
        (performAction id cooldown messageDuration now s).state).rateLimitMessage
      = none := by
  have hd : localCooldownDenies cooldown now
      (getLastActionTime s.lastActionTimes id) = true := by
    simp [localCooldownDenies, hlast, hlt]
  constructor
  · simp [performAction, hd, showMessage]
  · simp [performAction, hd, showMessage, fireTimer]

/-- C2 witness at concrete input. -/
theorem C2_localDenial_witness :
    performAction "open_stash" 5000 2000 1000
        { initialHookState with lastActionTimes := [("open_stash", 0)] } =
      { state := { initialHookState with
                    lastActionTimes := [("open_stash", 0)]
                    rateLimitMessage := some (rateLimitText "open_stash")
                    messageTimeout := some 3000 }
        hostCall := none
        actionInvoked := false } :=
  (C2_localDenial "open_stash" 5000 2000 1000 0
    { initialHookState with lastActionTimes := [("open_stash", 0)] }
    (by decide) (by decide)).1

/-- C3: `LastActionTime` is advanced only by a host reply with allowed =
true: `performAction` never modifies the store (local denial included), and
the reply effect leaves it unchanged whenever the response map does not hold
allowed = true for the id. -/
theorem C3_lastActionTimeInvariant :
    (∀ (id : String) (cooldown messageDuration now : Int) (s : HookState),
      (performAction id cooldown messageDuration now s).state.lastActionTimes
        = s.lastActionTimes) ∧
    (∀ (id : String) (messageDuration now : Int)
        (responses : List (String × Bool)) (s : HookState),
      responses.lookup id ≠ some true →
      (rateLimitEffect id messageDuration now responses s).lastActionTimes
        = s.lastActionTimes) := by
  constructor
  · intro id cooldown messageDuration now s
    by_cases hd : localCooldownDenies cooldown now
        (getLastActionTime s.lastActionTimes id) = true
    · simp [performAction, hd, showMessage]
    · simp [performAction, hd, showMessage]
  · intro id messageDuration now responses s hne
    match hl : responses.lookup id with
    | none => simp [rateLimitEffect, hl]
    | some true => exact absurd hl hne
    | some false => simp [rateLimitEffect, hl, showMessage]

/-- C3 witness at concrete input. -/
theorem C3_lastActionTimeInvariant_witness :
    (rateLimitEffect "open_stash" 2000 50 [("open_stash", false)]
        initialHookState).lastActionTimes
      = initialHookState.lastActionTimes :=
  C3_lastActionTimeInvariant.2 "open_stash" 2000 50 [("open_stash", false)]
    initialHookState (by decide)

/-- C4: whenever the local cooldown check passes, `performAction` issues the
`checkRateLimit` host call with payload actionId = id and cooldown =
cooldown, and invokes `actionFn` — for every state, including any produced by
processing a host reply, so the asynchronous reply never decides whether
`actionFn` runs (the reply effect only yields bookkeeping state). -/
theorem C4_optimisticRun (id : String) (cooldown messageDuration now : Int)
    (s : HookState)
    (hpass : localCooldownDenies cooldown now
        (getLastActionTime s.lastActionTimes id) = false) :
    (performAction id cooldown messageDuration now s).hostCall =
        some { event := "checkRateLimit", actionId := id, cooldown := cooldown } ∧
    (performAction id cooldown messageDuration now s).actionInvoked = true := by
  simp [performAction, hpass]

/-- C4 witness at concrete input (the §8 scenario: `open_stash`, cooldown
5000, called at t = 0 with no prior action). -/
theorem C4_optimisticRun_witness :
    (performAction "open_stash" 5000 2000 0 initialHookState).hostCall =
        some { event := "checkRateLimit", actionId := "open_stash", cooldown := 5000 } ∧
    (performAction "open_stash" 5000 2000 0 initialHookState).actionInvoked = true :=
  C4_optimisticRun "open_stash" 5000 2000 0 initialHookState (by decide)

/-- C5: processing a host reply with allowed = true for an id clears the
rate-limited flag, clears the displayed message, cancels any pending
auto-clear timer, and records the reply-processing time as
`LastActionTime[id]`. -/
theorem C5_allowedReply (id : String) (messageDuration now : Int)
    (responses : List (String × Bool)) (s : HookState)
    (hresp : responses.lookup id = some true) :
    (rateLimitEffect id messageDuration now responses s).isRateLimited = false ∧
    (rateLimitEffect id messageDuration now responses s).rateLimitMessage = none ∧
    (rateLimitEffect id messageDuration now responses s).messageTimeout = none ∧
    getLastActionTime
        (rateLimitEffect id messageDuration now responses s).lastActionTimes id
      = some now := by
  simp [rateLimitEffect, hresp, setLastActionTime, getLastActionTime, List.lookup]

/-- C5 witness at concrete input. -/
theorem C5_allowedReply_witness :
    (rateLimitEffect "open_stash" 2000 777 [("open_stash", true)]
        initialHookState).isRateLimited = false ∧
    getLastActionTime
        (rateLimitEffect "open_stash" 2000 777 [("open_stash", true)]
          initialHookState).lastActionTimes "open_stash"
      = some 777 := by
  have h := C5_allowedReply "open_stash" 2000 777 [("open_stash", true)]
    initialHookState (by decide)
  exact ⟨h.1, h.2.2.2⟩

/-- C6: processing a host reply with allowed = false for an id sets the
rate-limited flag and displays the denial message with an auto-clear
scheduled exactly `messageDuration` ms later; with no interleaving display or
clear, firing the timer at any other instant changes nothing (the message
clears no earlier and no later) and firing at the scheduled instant clears
it; the hook holds at most one pending timer, and every new display replaces
it with one scheduled `messageDuration` ms from that display. -/
theorem C6_deniedReply (id : String) (messageDuration t : Int)
    (responses : List (String × Bool)) (s : HookState)
    (hresp : responses.lookup id = some false) :
    (rateLimitEffect id messageDuration t responses s).isRateLimited = true ∧
    (rateLimitEffect id messageDuration t responses s).rateLimitMessage
      = some (rateLimitText id) ∧
    (rateLimitEffect id messageDuration t responses s).messageTimeout
      = some (t + messageDuration) ∧
    (∀ u : Int, u ≠ t + messageDuration →
      fireTimer u (rateLimitEffect id messageDuration t responses s)
        = rateLimitEffect id messageDuration t responses s) ∧
    (fireTimer (t + messageDuration)
        (rateLimitEffect id messageDuration t responses s)).rateLimitMessage
      = none ∧
    (∀ (u : Int) (msg : String) (s2 : HookState),
      (showMessage messageDuration u msg s2).messageTimeout
        = some (u + messageDuration)) := by
  refine ⟨?_, ?_, ?_, ?_, ?_, ?_⟩
  · simp [rateLimitEffect, hresp, showMessage]
  · simp [rateLimitEffect, hresp, showMessage]
  · simp [rateLimitEffect, hresp, showMessage]
  · intro u hu
    simp [rateLimitEffect, hresp, showMessage, fireTimer]
    intro hEq
    exact absurd hEq.symm hu
  · simp [rateLimitEffect, hresp, showMessage, fireTimer]
  · intro u msg s2
    simp [showMessage]

/-- C6 witness at concrete input (the §8 scenario: denial reply for
`open_stash` processed at t = 1200, auto-clear at 1200 + 2000). -/
theorem C6_deniedReply_witness :
    (rateLimitEffect "open_stash" 2000 1200 [("open_stash", false)]
        initialHookState).messageTimeout = some 3200 ∧
    (fireTimer 3200
        (rateLimitEffect "open_stash" 2000 1200 [("open_stash", false)]
          initialHookState)).rateLimitMessage = none := by
  have h := C6_deniedReply "open_stash" 2000 1200 [("open_stash", false)]
    initialHookState (by decide)
  exact ⟨h.2.2.1, h.2.2.2.2.1⟩

/-- C7: `sendMessage` never throws to its caller: when the transport call
rejects, or resolves with a response whose status is not in the 2xx range, it
resolves with null. -/
theorem C7_transportFailureNull (env : HostEnv) (event : JSVal) (body : String) :
    (∀ e : String, env.fetch (sendUrl env event) body = .rejected e →
      (sendMessage env event body).result = .null) ∧
    (∀ r : FetchResponse, env.fetch (sendUrl env event) body = .response r →
      respOk r.status = false →
      (sendMessage env event body).result = .null) := by
  constructor
  · intro e he
    simp [sendMessage, he]
  · intro r hr hok
    simp [sendMessage, hr, hok]

/-- C7 witness at concrete input: a transport that rejects. -/
theorem C7_transportFailureNull_witness :
    (sendMessage
        { getParentResourceName := none
          fetch := fun _ _ => .rejected "network down" }
        (.str "uiReady") "{}").result = .null :=
  (C7_transportFailureNull
      { getParentResourceName := none
        fetch := fun _ _ => .rejected "network down" }
      (.str "uiReady") "{}").1 "network down" rfl

/-- C8: on a 2xx response `sendMessage` resolves with the JSON parse of the
body when parsing succeeds, and with the raw body text when parsing fails —
it does not raise. -/
theorem C8_successBodyParse (env : HostEnv) (event : JSVal) (body : String)
    (r : FetchResponse)
    (hr : env.fetch (sendUrl env event) body = .response r)
    (hok : respOk r.status = true) :
    (sendMessage env event body).result =
      (match r.jsonBody with
       | some v => SendResult.jsonVal v
       | none => SendResult.text r.textBody) := by
  cases hj : r.jsonBody <;> simp [sendMessage, hr, hok, hj]

/-- C8 witness at concrete input: a 200 response whose body fails to parse as
JSON resolves with the raw text. -/
theorem C8_successBodyParse_witness :
    (sendMessage
        { getParentResourceName := none
          fetch := fun _ _ =>
            .response { status := 200, jsonBody := none, textBody := "ok" } }
        (.str "uiReady") "{}").result = .text "ok" :=
  C8_successBodyParse
    { getParentResourceName := none
      fetch := fun _ _ =>
        .response { status := 200, jsonBody := none, textBody := "ok" } }
    (.str "uiReady") "{}"
    { status := 200, jsonBody := none, textBody := "ok" } rfl (by decide)

/-- C9: calling `useNui` with no context value present raises
`Error('useNui must be used within NuiProvider')` at the access attempt,
and with a context value present it returns that value — never a silent
default. -/
theorem C9_useNuiFailFast :
    useNui none = Except.error "useNui must be used within NuiProvider" ∧
    ∀ c : NuiContextValue, useNui (some c) = Except.ok c := by
  exact ⟨rfl, fun c => rfl⟩

/-- The URL a `sendMessage` call records is the one its `fetch` targeted,
whatever the transport outcome. -/
theorem sendMessage_url (env : HostEnv) (event : JSVal) (body : String) :
    (sendMessage env event body).url = sendUrl env event := by
  simp only [sendMessage]
  split
  · rfl
  · split
    · split <;> rfl
    · rfl

/-- C10: every `sendMessage` call targets
`https://{resourceName}/{event}`, where resourceName is the value of
`window.GetParentResourceName()` when that function is defined and
"inkwell-react-template" otherwise, and the event name falls back to
"unknownEvent" when the supplied event is not a string. -/
theorem C10_targetUrl (g : Option String)
    (fetch : String → String → FetchOutcome) (event : JSVal) (body : String) :
    (sendMessage { getParentResourceName := g, fetch := fetch } event body).url =
      "https://"
        ++ (match g with
            | some r => r
            | none => "inkwell-react-template")
        ++ "/"
        ++ (match event with
            | .str s => s
            | .other => "unknownEvent") := by
  rw [sendMessage_url]
  cases g <;> cases event <;> rfl
